import Mathlib

/- Shallow embedding of the signal-scoring engine of market_analyzer.py
   (class MarketAnalyzer).  Pandas/NumPy float64 values are idealised as
   exact rationals extended with NaN and signed infinities; all comparisons
   with NaN are false, mirroring IEEE-754 semantics that the source relies
   on (RSI division by zero, rolling windows shorter than their period). -/

set_option maxRecDepth 100000

attribute [local semireducible] Rat.add Rat.mul Rat.inv Rat.sub Rat.ofScientific

namespace TgBot

/-- A pandas float64 cell: an exact rational, or NaN, or plus/minus infinity.
NaN arises from 0/0 and from rolling windows with fewer samples than the
period; infinity arises from x/0 with x nonzero (NumPy elementwise division
emits inf rather than raising). -/
inductive PF where
  | nan : PF
  | inf : PF
  | ninf : PF
  | num : ℚ → PF
deriving DecidableEq, Repr, Inhabited

/-- IEEE negation. -/
def PF.neg : PF → PF
  | .nan => .nan
  | .inf => .ninf
  | .ninf => .inf
  | .num q => .num (-q)

/-- IEEE addition: NaN propagates, inf + (-inf) is NaN. -/
def PF.add : PF → PF → PF
  | .nan, _ => .nan
  | _, .nan => .nan
  | .inf, .ninf => .nan
  | .ninf, .inf => .nan
  | .inf, _ => .inf
  | _, .inf => .inf
  | .ninf, _ => .ninf
  | _, .ninf => .ninf
  | .num a, .num b => .num (a + b)

/-- IEEE subtraction, defined from addition and negation. -/
def PF.sub (a b : PF) : PF := a.add b.neg

/-- IEEE multiplication: NaN propagates, inf times zero is NaN. -/
def PF.mul : PF → PF → PF
  | .nan, _ => .nan
  | _, .nan => .nan
  | .inf, .inf => .inf
  | .inf, .ninf => .ninf
  | .ninf, .inf => .ninf
  | .ninf, .ninf => .inf
  | .inf, .num q => if 0 < q then .inf else if q < 0 then .ninf else .nan
  | .num q, .inf => if 0 < q then .inf else if q < 0 then .ninf else .nan
  | .ninf, .num q => if 0 < q then .ninf else if q < 0 then .inf else .nan
  | .num q, .ninf => if 0 < q then .ninf else if q < 0 then .inf else .nan
  | .num a, .num b => .num (a * b)

/-- IEEE division as NumPy performs it elementwise: x/0 gives a signed
infinity for x nonzero, 0/0 gives NaN, finite/inf gives 0. -/
def PF.div : PF → PF → PF
  | .nan, _ => .nan
  | _, .nan => .nan
  | .inf, .inf => .nan
  | .inf, .ninf => .nan
  | .ninf, .inf => .nan
  | .ninf, .ninf => .nan
  | .inf, .num q => if q < 0 then .ninf else .inf
  | .ninf, .num q => if q < 0 then .inf else .ninf
  | .num _, .inf => .num 0
  | .num _, .ninf => .num 0
  | .num a, .num b =>
      if b = 0 then (if a = 0 then .nan else if 0 < a then .inf else .ninf)
      else .num (a / b)

/-- Comparison x < q against a finite float: false whenever x is NaN. -/
def PF.ltQ : PF → ℚ → Bool
  | .nan, _ => false
  | .inf, _ => false
  | .ninf, _ => true
  | .num a, q => decide (a < q)

/-- Comparison x > q against a finite float: false whenever x is NaN. -/
def PF.gtQ : PF → ℚ → Bool
  | .nan, _ => false
  | .inf, _ => true
  | .ninf, _ => false
  | .num a, q => decide (q < a)

/-- Python min on exact rationals. -/
def qmin (a b : ℚ) : ℚ := if a ≤ b then a else b

/-- Python max on exact rationals. -/
def qmax (a b : ℚ) : ℚ := if a ≤ b then b else a

/-- Python abs on exact rationals. -/
def qabs (q : ℚ) : ℚ := if q < 0 then -q else q

/-- Floor of a rational, via flooring integer division of numerator by
denominator (executable and kernel-reducible). -/
def ratFloor (q : ℚ) : ℤ := Int.fdiv q.num (q.den : ℤ)

/-- Round-half-to-even to an integer, the convention of Python round(). -/
def halfEven (q : ℚ) : ℤ :=
  let f := ratFloor q
  let r := q - (f : ℚ)
  if r < 1/2 then f
  else if 1/2 < r then f + 1
  else if f % 2 = 0 then f else f + 1

/-- Python round(q, ndigits) on an exact rational. -/
def pyRound (ndigits : ℕ) (q : ℚ) : ℚ := (halfEven (q * 10 ^ ndigits) : ℚ) / 10 ^ ndigits

/-- Python round(x, ndigits) lifted to floats: NaN and infinities pass through. -/
def pyRoundPF (ndigits : ℕ) : PF → PF
  | .nan => .nan
  | .inf => .inf
  | .ninf => .ninf
  | .num q => .num (pyRound ndigits q)

/-- Arithmetic mean of a list of rationals (callers guard nonemptiness). -/
def listMean (xs : List ℚ) : ℚ := xs.sum / (xs.length : ℚ)

/-- Tail of the EWM recurrence: given the previous smoothed value, produce
the smoothed values for the remaining samples. -/
def ewmFrom (a : ℚ) (prev : ℚ) : List ℚ → List ℚ
  | [] => []
  | x :: xs =>
    let e := a * x + (1 - a) * prev
    e :: ewmFrom a e xs

/-- Series.ewm(span=period, adjust=False).mean(): smoothing factor
2/(period+1), seeded with the first sample. -/
def ewmMean (period : ℕ) (xs : List ℚ) : List ℚ :=
  match xs with
  | [] => []
  | x :: rest => x :: ewmFrom (2 / ((period : ℚ) + 1)) x rest

/-- calculate_ema (market_analyzer.py lines 23-24): data.ewm(span=period,
adjust=False).mean(). -/
def calculate_ema (data : List ℚ) (period : ℕ) : List ℚ := ewmMean period data

/-- Series.diff(): first entry NaN, then successive differences. -/
def seriesDiff : List ℚ → List PF
  | [] => []
  | x :: xs => .nan :: List.zipWith (fun b a => PF.num (b - a)) xs (x :: xs)

/-- delta.where(delta > 0, 0): keep positive diffs, else 0 (NaN compares
false, so the leading NaN becomes 0). -/
def whereGain : PF → ℚ
  | .num q => if 0 < q then q else 0
  | _ => 0

/-- minus delta.where(delta < 0, 0): negated negative diffs, else 0. -/
def whereLoss : PF → ℚ
  | .num q => if q < 0 then -q else 0
  | _ => 0

/-- Series.rolling(window=w).mean(): NaN until w samples are available,
then the mean of the trailing w samples. -/
def rollingMean (w : ℕ) (xs : List ℚ) : List PF :=
  (List.range xs.length).map fun i =>
    if w ≤ i + 1 then .num (listMean ((xs.take (i + 1)).drop (i + 1 - w))) else .nan

/-- Sample variance with ddof = 1 (the square of pandas rolling std). -/
def sampleVar (xs : List ℚ) : ℚ :=
  let m := listMean xs
  (xs.map fun x => (x - m) * (x - m)).sum / ((xs.length - 1 : ℕ) : ℚ)

/-- Series.rolling(window=w).std() squared: NaN until w samples are
available, then the sample variance of the trailing w samples. -/
def rollingVar (w : ℕ) (xs : List ℚ) : List PF :=
  (List.range xs.length).map fun i =>
    if w ≤ i + 1 ∧ 2 ≤ w then .num (sampleVar ((xs.take (i + 1)).drop (i + 1 - w))) else .nan

/-- The rs series of calculate_rsi (line 30): rolling mean of gains divided
elementwise by rolling mean of losses, with NumPy division semantics. -/
def rsSeries (data : List ℚ) (period : ℕ) : List PF :=
  let delta := seriesDiff data
  let gain := rollingMean period (delta.map whereGain)
  let loss := rollingMean period (delta.map whereLoss)
  List.zipWith PF.div gain loss

/-- calculate_rsi (market_analyzer.py lines 26-31): 100 - 100/(1+rs). -/
def calculate_rsi (data : List ℚ) (period : ℕ) : List PF :=
  (rsSeries data period).map fun rs =>
    PF.sub (.num 100) (PF.div (.num 100) (PF.add (.num 1) rs))

/-- calculate_macd (market_analyzer.py lines 33-38): macd = ema12 - ema26,
signal = ema9 of macd. -/
def calculate_macd (data : List ℚ) : List ℚ × List ℚ :=
  let exp1 := ewmMean 12 data
  let exp2 := ewmMean 26 data
  let macd := List.zipWith (fun a b => a - b) exp1 exp2
  (macd, ewmMean 9 macd)

/-- A Bollinger-band cell: NaN while the rolling window is short, else the
exact value a + b * sqrt v encoded by its three rational components
(a the rolling mean, b = 2 or -2, v the rolling sample variance, so v >= 0).
Keeping the radicand unevaluated lets every comparison against a price be
decided exactly by squaring. -/
inductive BVal where
  | nan : BVal
  | val : ℚ → ℚ → ℚ → BVal
deriving DecidableEq, Repr, Inhabited

/-- calculate_bollinger_bands (market_analyzer.py lines 40-45):
upper = sma + 2 * std, lower = sma - 2 * std, as exact a + b*sqrt(v) cells. -/
def calculate_bollinger_bands (data : List ℚ) (period : ℕ) : List BVal × List BVal :=
  let sma := rollingMean period data
  let var := rollingVar period data
  let upper := List.zipWith (fun m v =>
    match m, v with
    | PF.num a, PF.num s => BVal.val a 2 s
    | _, _ => BVal.nan) sma var
  let lower := List.zipWith (fun m v =>
    match m, v with
    | PF.num a, PF.num s => BVal.val a (-2) s
    | _, _ => BVal.nan) sma var
  (upper, lower)

/-- Exact decision of c < a + b*sqrt(v) for v >= 0 (comparison against a
band value; false on NaN, matching float comparisons). -/
def qltBand (c : ℚ) : BVal → Bool
  | .nan => false
  | .val a b v =>
    let d := c - a
    if v = 0 ∨ b = 0 then decide (d < 0)
    else if 0 < b then decide (d < 0) || decide (d * d < b * b * v)
    else decide (d < 0 ∧ b * b * v < d * d)

/-- Exact decision of c > a + b*sqrt(v) for v >= 0. -/
def qgtBand (c : ℚ) : BVal → Bool
  | .nan => false
  | .val a b v =>
    let d := c - a
    if v = 0 ∨ b = 0 then decide (0 < d)
    else if 0 < b then decide (0 < d ∧ b * b * v < d * d)
    else decide (0 < d) || decide (d * d < b * b * v)

/-- One OHLCV sample restricted to the columns the scorer reads. -/
structure Bar where
  close : ℚ
  volume : ℚ
deriving DecidableEq, Repr, Inhabited

/-- The directional call. -/
inductive Signal where
  | BUY : Signal
  | SELL : Signal
  | NEUTRAL : Signal
deriving DecidableEq, Repr, Inhabited

/-- Bollinger-band position reported in the indicators dict. -/
inductive BBPos where
  | oversold : BBPos
  | overbought : BBPos
  | normal : BBPos
deriving DecidableEq, Repr, Inhabited

/-- df.iloc[-2] on a column: defined only when at least two rows exist
(a one-row frame raises IndexError, line 172). -/
def ilocNeg2 {α : Type} (xs : List α) : Option α :=
  match xs.reverse with
  | _ :: y :: _ => some y
  | _ => none

/-- EMA rule (lines 162-166): diff percent above 0.05 appends +1, below
-0.05 appends -1. -/
def emaSignals (ema_diff_percent : PF) : List ℤ :=
  if ema_diff_percent.gtQ 0.05 then [1]
  else if ema_diff_percent.ltQ (-0.05) then [-1]
  else []

/-- MACD rule (lines 171-180): sign of macd - signal appends one
contribution, a matching macd slope appends a second. -/
def macdSignals (macd_diff macd_trend : ℚ) : List ℤ :=
  if 0 < macd_diff then 1 :: (if 0 < macd_trend then [1] else [])
  else -1 :: (if macd_trend < 0 then [-1] else [])

/-- RSI rule (lines 185-193): below 35 appends [2, 1], above 65 appends
[-2, -1], else below 45 appends [1], above 55 appends [-1]. -/
def rsiSignals (last_rsi : PF) : List ℤ :=
  if last_rsi.ltQ 35 then [2, 1]
  else if last_rsi.gtQ 65 then [-2, -1]
  else if last_rsi.ltQ 45 then [1]
  else if last_rsi.gtQ 55 then [-1]
  else []

/-- Bollinger rule (lines 198-205): price below the lower band appends 2
(oversold), above the upper band appends -2 (overbought). -/
def bbSignals (current_price : ℚ) (lower upper : BVal) : List ℤ × BBPos :=
  if qltBand current_price lower then ([2], .oversold)
  else if qgtBand current_price upper then ([-2], .overbought)
  else ([], .normal)

/-- Every intermediate value of the successful branch of analyze_timeframe
(lines 129-234), recorded so the theorems can speak about each step. -/
structure CoreOut where
  start_price : ℚ
  end_price : ℚ
  current_volume : ℚ
  avg_volume : ℚ
  current_price : ℚ
  price_change : PF
  volume_ratio : ℚ
  volume_strength : ℕ
  ema_diff_percent : PF
  macd_diff : ℚ
  macd_trend : ℚ
  last_rsi : PF
  last_macd : ℚ
  upper_last : BVal
  lower_last : BVal
  bb_position : BBPos
  trend_signals : List ℤ
  trend_strength : ℚ
  confidence : ℚ
  signal : Signal
deriving DecidableEq, Repr, Inhabited

/-- The scalar part of the successful branch of analyze_timeframe (lines
140-224), computed from the last-row values extracted from the indicator
series.  Decimal thresholds of the source appear as the exact rationals
those literals denote. -/
def buildCore (start_price end_price current_volume avg_volume e7 e21 : ℚ)
    (last_rsi : PF) (m1 m2 ms1 : ℚ) (ub lb : BVal) : CoreOut :=
  let price_change := PF.mul (PF.div (.num (end_price - start_price)) (.num start_price)) (.num 100)
  let volume_ratio := if 0 < avg_volume then current_volume / avg_volume else 1
  let volume_strength : ℕ :=
    if (1.5 : ℚ) < volume_ratio then 3
    else if (1.2 : ℚ) < volume_ratio then 2
    else if (1 : ℚ) < volume_ratio then 1
    else 0
  let ema_diff_percent := PF.mul (PF.div (.num (e7 - e21)) (.num e21)) (.num 100)
  let macd_diff := m1 - ms1
  let macd_trend := m1 - m2
  let current_price := end_price
  let bb := bbSignals current_price lb ub
  let trend_signals := emaSignals ema_diff_percent ++ macdSignals macd_diff macd_trend
      ++ rsiSignals last_rsi ++ bb.1
  let trend_strength := ((trend_signals.sum : ℤ) : ℚ) * (1 + (volume_strength : ℚ) * 0.2)
  let confidence := qmin 95 (qmax 50 (50 + qabs trend_strength * 5))
  let signal :=
    if (1.2 : ℚ) ≤ qabs trend_strength then
      (if 0 < trend_strength then Signal.BUY else Signal.SELL)
    else Signal.NEUTRAL
  { start_price, end_price, current_volume, avg_volume, current_price, price_change,
    volume_ratio, volume_strength, ema_diff_percent, macd_diff, macd_trend,
    last_rsi, last_macd := m1, upper_last := ub, lower_last := lb,
    bb_position := bb.2, trend_signals, trend_strength, confidence, signal }

/-- The eleven last-row scalars the try-block of analyze_timeframe reads
through iloc on the indicator series of the trailing minutes rows; a none
result stands for the IndexError that a too-short window raises at
macd.iloc[-2] (line 172) or close_prices.iloc[0] (line 141), which the
except-arm catches. -/
structure Extracted where
  start_price : ℚ
  end_price : ℚ
  current_volume : ℚ
  e7 : ℚ
  e21 : ℚ
  last_rsi : PF
  m1 : ℚ
  m2 : ℚ
  ms1 : ℚ
  ub : BVal
  lb : BVal
deriving DecidableEq, Repr, Inhabited

/-- Extraction part of the try-block (lines 129-138 build the series,
lines 141-230 read their last rows). -/
def extractLast (df : List Bar) (minutes : ℕ) : Option Extracted :=
  let recent_data := df.drop (df.length - minutes)
  let close_prices := recent_data.map Bar.close
  let volume := recent_data.map Bar.volume
  let ema_7 := calculate_ema close_prices 7
  let ema_21 := calculate_ema close_prices 21
  let rsi := calculate_rsi close_prices 14
  let macd := (calculate_macd close_prices).1
  let macd_signal := (calculate_macd close_prices).2
  let upper_band := (calculate_bollinger_bands close_prices 20).1
  let lower_band := (calculate_bollinger_bands close_prices 20).2
  match close_prices.head?, close_prices.getLast?, volume.getLast?,
      ema_7.getLast?, ema_21.getLast?, rsi.getLast?, macd.getLast?, ilocNeg2 macd,
      macd_signal.getLast?, upper_band.getLast?, lower_band.getLast? with
  | some start_price, some end_price, some current_volume, some e7, some e21,
      some last_rsi, some m1, some m2, some ms1, some ub, some lb =>
    some ⟨start_price, end_price, current_volume, e7, e21, last_rsi, m1, m2, ms1, ub, lb⟩
  | _, _, _, _, _, _, _, _, _, _, _ => none

/-- The try-block of analyze_timeframe (lines 128-234): extract the
last-row scalars and assemble the scored result, the average of the volume
column being the one aggregate read from a whole series (line 146). -/
def analyzeCore (df : List Bar) (minutes : ℕ) : Option CoreOut :=
  (extractLast df minutes).map fun t =>
    buildCore t.start_price t.end_price t.current_volume
      (listMean ((df.drop (df.length - minutes)).map Bar.volume))
      t.e7 t.e21 t.last_rsi t.m1 t.m2 t.ms1 t.ub t.lb

/-- The indicators dict (lines 126, 226-232, 238): confidence and
expiration always present; rsi, macd and bb_position only on the
successful branch. -/
structure Indicators where
  confidence : ℚ
  expiration : ℕ
  rsi : Option PF := none
  macd : Option ℚ := none
  bb_position : Option BBPos := none
deriving DecidableEq, Repr, Inhabited

/-- The 4-tuple analyze_timeframe returns. -/
structure TFOut where
  signal : Signal
  change : PF
  indicators : Indicators
  error : Option String
deriving DecidableEq, Repr, Inhabited

/-- analyze_timeframe (market_analyzer.py lines 124-238).  A none frame or
one shorter than minutes returns the neutral default with no error (lines
125-126); an IndexError inside the try-block is caught and returned as a
neutral default carrying the diagnostic string (lines 236-238). -/
def analyze_timeframe (df : Option (List Bar)) (minutes : ℕ) : TFOut :=
  match df with
  | none =>
    { signal := .NEUTRAL, change := .num 0,
      indicators := { confidence := 50, expiration := minutes }, error := none }
  | some d =>
    if d.length < minutes then
      { signal := .NEUTRAL, change := .num 0,
        indicators := { confidence := 50, expiration := minutes }, error := none }
    else
      match analyzeCore d minutes with
      | some o =>
        { signal := o.signal, change := o.price_change,
          indicators := { confidence := pyRound 1 o.confidence, expiration := minutes,
                          rsi := some (pyRoundPF 2 o.last_rsi),
                          macd := some (pyRound 4 o.last_macd),
                          bb_position := some o.bb_position },
          error := none }
      | none =>
        { signal := .NEUTRAL, change := .num 0,
          indicators := { confidence := 50, expiration := minutes },
          error := some "Analysis error" }

/-- The fixed window lengths (market_analyzer.py line 9). -/
def TIMEFRAMES : List ℕ := [1, 5, 15, 30]

/-- One entry of the per-timeframe map assembled by analyze_market
(lines 263-267): the error component of the 4-tuple is logged, not stored. -/
structure TFEntry where
  signal : Signal
  change : PF
  indicators : Indicators
deriving DecidableEq, Repr, Inhabited

/-- The successful top-level output of analyze_market (lines 270-274),
minus the wall-clock timestamp. -/
structure MarketAnalysis where
  current_price : ℚ
  timeframes : List (ℕ × TFEntry)
deriving DecidableEq, Repr, Inhabited

/-- analyze_market either returns an analysis or one error tag. -/
inductive MarketOutcome where
  | ok : MarketAnalysis → MarketOutcome
  | err : String → MarketOutcome
deriving DecidableEq, Repr, Inhabited

/-- The post-fetch part of analyze_market (lines 249-274): data retrieval
is an external collaborator, so the frame (or its absence) is the input.
A none or empty frame yields the NO_DATA tag; otherwise the scorer runs
once per timeframe and every timeframe gets an entry. -/
def analyze_market (df : Option (List Bar)) : MarketOutcome :=
  match df with
  | none => .err "NO_DATA"
  | some bars =>
    match (bars.map Bar.close).getLast? with
    | none => .err "NO_DATA"
    | some current_price =>
      .ok { current_price,
            timeframes := TIMEFRAMES.map fun minutes =>
              let r := analyze_timeframe (some bars) minutes
              (minutes, { signal := r.signal, change := r.change, indicators := r.indicators }) }

/-- Integer power on rationals by explicit recursion, used to build the
geometric test window of the end-to-end scenario. -/
def qpow (q : ℚ) : ℕ → ℚ
  | 0 => 1
  | n + 1 => q * qpow q n

/-- A window of n identical samples. -/
def constBars (n : ℕ) (c v : ℚ) : List Bar :=
  List.replicate n { close := c, volume := v }

/-- The end-to-end scenario of the spec (section 8): 30 samples whose close
rises 0.1 percent per step, volume constant except a 2x spike on the final
sample. -/
def risingBars : List Bar := (List.range 30).map fun i =>
  { close := 100 * qpow (1001/1000) i, volume := if i = 29 then 2 else 1 }

/-- The CoreOut record that a constant window of nonzero close c and
constant volume v produces (established by the theorem on C1): everything
collapses except the MACD rule's else-branch contribution -1. -/
def constCoreOut (c v : ℚ) : CoreOut :=
  { start_price := c, end_price := c, current_volume := v, avg_volume := v,
    current_price := c, price_change := .num 0, volume_ratio := 1, volume_strength := 0,
    ema_diff_percent := .num 0, macd_diff := 0, macd_trend := 0, last_rsi := .nan,
    last_macd := 0, upper_last := .val c 2 0, lower_last := .val c (-2) 0,
    bb_position := BBPos.normal, trend_signals := [-1], trend_strength := -1,
    confidence := 55, signal := Signal.NEUTRAL }

/-- Specification-side EMA recurrence, written exactly as the spec states
it (section 4.1): ema[0] = series[0] and ema[i] = alpha * series[i] +
(1 - alpha) * ema[i-1], with alpha = 2/(period+1).  It is compared with
calculate_ema, the embedding of the pandas call the source makes. -/
def emaSpecFun (a : ℚ) (xs : List ℚ) : ℕ → ℚ
  | 0 => xs.headI
  | i + 1 => a * xs.getD (i + 1) 0 + (1 - a) * emaSpecFun a xs i

/- Helper lemmas shared by the claim theorems. -/

/-- Every successful run of the scorer produces exactly the record built by
buildCore, with the volume average tied to the mean of the window's volume
column; consequently each derived field satisfies its defining equation
from the source. -/
lemma coreOut_spec (df : List Bar) (m : ℕ) (o : CoreOut)
    (h : analyzeCore df m = some o) :
    o.trend_signals = emaSignals o.ema_diff_percent
        ++ macdSignals o.macd_diff o.macd_trend
        ++ rsiSignals o.last_rsi
        ++ (bbSignals o.current_price o.lower_last o.upper_last).1 ∧
    o.trend_strength = ((o.trend_signals.sum : ℤ) : ℚ) * (1 + (o.volume_strength : ℚ) * 0.2) ∧
    o.confidence = qmin 95 (qmax 50 (50 + qabs o.trend_strength * 5)) ∧
    o.signal = (if (1.2 : ℚ) ≤ qabs o.trend_strength then
        (if 0 < o.trend_strength then Signal.BUY else Signal.SELL) else Signal.NEUTRAL) ∧
    o.volume_ratio = (if 0 < o.avg_volume then o.current_volume / o.avg_volume else 1) ∧
    o.volume_strength = (if (1.5 : ℚ) < o.volume_ratio then 3
        else if (1.2 : ℚ) < o.volume_ratio then 2
        else if (1 : ℚ) < o.volume_ratio then 1 else 0) ∧
    o.avg_volume = listMean ((df.drop (df.length - m)).map Bar.volume) := by
  unfold analyzeCore at h
  obtain ⟨t, ht, rfl⟩ := Option.map_eq_some'.mp h
  exact ⟨rfl, rfl, rfl, rfl, rfl, rfl, rfl⟩

lemma qabs_nonneg (q : ℚ) : 0 ≤ qabs q := by
  unfold qabs; split <;> linarith

lemma qabs_of_neg {q : ℚ} (h : q < 0) : qabs q = -q := by
  unfold qabs; rw [if_pos h]

lemma qabs_of_nonneg {q : ℚ} (h : 0 ≤ q) : qabs q = q := by
  unfold qabs; rw [if_neg (by linarith)]

/-- The signal-determination conditional (lines 219-222), characterised by
the three threshold conditions of the spec. -/
lemma signal_formula (ts : ℚ) :
    ((if (1.2 : ℚ) ≤ qabs ts then (if 0 < ts then Signal.BUY else Signal.SELL)
        else Signal.NEUTRAL) = Signal.BUY ↔ (1.2 : ℚ) ≤ ts) ∧
    ((if (1.2 : ℚ) ≤ qabs ts then (if 0 < ts then Signal.BUY else Signal.SELL)
        else Signal.NEUTRAL) = Signal.SELL ↔ ts ≤ -(1.2 : ℚ)) ∧
    ((if (1.2 : ℚ) ≤ qabs ts then (if 0 < ts then Signal.BUY else Signal.SELL)
        else Signal.NEUTRAL) = Signal.NEUTRAL ↔ qabs ts < 1.2) := by
  by_cases hneg : ts < 0
  · rw [qabs_of_neg hneg]
    by_cases hth : (1.2 : ℚ) ≤ -ts
    · rw [if_pos hth, if_neg (by linarith)]
      exact ⟨iff_of_false (by simp) (by intro hc; linarith),
        iff_of_true rfl (by linarith),
        iff_of_false (by simp) (by intro hc; linarith)⟩
    · rw [if_neg hth]
      exact ⟨iff_of_false (by simp) (by intro hc; linarith),
        iff_of_false (by simp) (by intro hc; linarith),
        iff_of_true rfl (by linarith)⟩
  · push_neg at hneg
    rw [qabs_of_nonneg hneg]
    by_cases hth : (1.2 : ℚ) ≤ ts
    · rw [if_pos hth, if_pos (by linarith)]
      exact ⟨iff_of_true rfl hth,
        iff_of_false (by simp) (by intro hc; linarith),
        iff_of_false (by simp) (by intro hc; linarith)⟩
    · rw [if_neg hth]
      exact ⟨iff_of_false (by simp) (by intro hc; linarith),
        iff_of_false (by simp) (by intro hc; linarith),
        iff_of_true rfl (by linarith)⟩

/-- C3: the emitted signal is BUY exactly when trend_strength is at least
1.2, SELL exactly when it is at most -1.2, and NEUTRAL exactly when its
magnitude is below 1.2 (so magnitude exactly 1.2 is non-NEUTRAL and
magnitude 1.1999 is NEUTRAL). -/
theorem C3_signal_threshold (df : List Bar) (minutes : ℕ) (o : CoreOut)
    (h : analyzeCore df minutes = some o) :
    (o.signal = Signal.BUY ↔ (1.2 : ℚ) ≤ o.trend_strength) ∧
    (o.signal = Signal.SELL ↔ o.trend_strength ≤ -(1.2 : ℚ)) ∧
    (o.signal = Signal.NEUTRAL ↔ qabs o.trend_strength < 1.2) := by
  obtain ⟨-, -, -, hsig, -, -, -⟩ := coreOut_spec df minutes o h
  rw [hsig]
  exact signal_formula o.trend_strength

/-- Witness for C3 at a concrete 30-sample window. -/
theorem C3_signal_threshold_witness :
    ((analyzeCore (constBars 30 100 10) 30).iget.signal = Signal.BUY ↔
      (1.2 : ℚ) ≤ (analyzeCore (constBars 30 100 10) 30).iget.trend_strength) ∧
    ((analyzeCore (constBars 30 100 10) 30).iget.signal = Signal.SELL ↔
      (analyzeCore (constBars 30 100 10) 30).iget.trend_strength ≤ -(1.2 : ℚ)) ∧
    ((analyzeCore (constBars 30 100 10) 30).iget.signal = Signal.NEUTRAL ↔
      qabs (analyzeCore (constBars 30 100 10) 30).iget.trend_strength < 1.2) :=
  C3_signal_threshold (constBars 30 100 10) 30
    (analyzeCore (constBars 30 100 10) 30).iget (by decide)

/-- C5: a null frame, and any frame shorter than the requested minutes,
returns the deliberate neutral default (NEUTRAL, 0, confidence 50,
expiration minutes) with a null error, never a fault. -/
theorem C5_insufficient_window (minutes : ℕ) (d : List Bar)
    (h : d.length < minutes) :
    analyze_timeframe (some d) minutes =
      { signal := Signal.NEUTRAL, change := PF.num 0,
        indicators := { confidence := 50, expiration := minutes }, error := none } ∧
    analyze_timeframe none minutes =
      { signal := Signal.NEUTRAL, change := PF.num 0,
        indicators := { confidence := 50, expiration := minutes }, error := none } := by
  constructor
  · simp only [analyze_timeframe]
    rw [if_pos h]
  · rfl

/-- Witness for C5 at a 3-sample window scored for 5 minutes. -/
theorem C5_insufficient_window_witness :
    analyze_timeframe (some (constBars 3 100 10)) 5 =
      { signal := Signal.NEUTRAL, change := PF.num 0,
        indicators := { confidence := 50, expiration := 5 }, error := none } ∧
    analyze_timeframe none 5 =
      { signal := Signal.NEUTRAL, change := PF.num 0,
        indicators := { confidence := 50, expiration := 5 }, error := none } :=
  C5_insufficient_window 5 (constBars 3 100 10) (by decide)

/-- C6: a non-positive mean of the volume column makes volume_ratio fall
back to 1.0 (so the division is never reached) and volume_strength 0; in
general volume_strength follows the threshold ladder 1.5 / 1.2 / 1.0. -/
theorem C6_volume_guard (df : List Bar) (minutes : ℕ) (o : CoreOut)
    (h : analyzeCore df minutes = some o) :
    o.avg_volume = listMean ((df.drop (df.length - minutes)).map Bar.volume) ∧
    (¬ 0 < o.avg_volume → o.volume_ratio = 1 ∧ o.volume_strength = 0) ∧
    o.volume_ratio = (if 0 < o.avg_volume then o.current_volume / o.avg_volume else 1) ∧
    o.volume_strength = (if (1.5 : ℚ) < o.volume_ratio then 3
        else if (1.2 : ℚ) < o.volume_ratio then 2
        else if (1 : ℚ) < o.volume_ratio then 1 else 0) := by
  obtain ⟨-, -, -, -, hr, hs, ha⟩ := coreOut_spec df minutes o h
  refine ⟨ha, fun hneg => ?_, hr, hs⟩
  have hr1 : o.volume_ratio = 1 := by rw [hr, if_neg hneg]
  refine ⟨hr1, ?_⟩
  rw [hs, hr1]
  norm_num

/-- Witness for C6 at a 30-sample window whose volumes are all zero. -/
theorem C6_volume_guard_witness :
    (analyzeCore (constBars 30 100 0) 30).iget.avg_volume =
      listMean (((constBars 30 100 0).drop ((constBars 30 100 0).length - 30)).map Bar.volume) ∧
    (¬ 0 < (analyzeCore (constBars 30 100 0) 30).iget.avg_volume →
      (analyzeCore (constBars 30 100 0) 30).iget.volume_ratio = 1 ∧
      (analyzeCore (constBars 30 100 0) 30).iget.volume_strength = 0) ∧
    (analyzeCore (constBars 30 100 0) 30).iget.volume_ratio =
      (if 0 < (analyzeCore (constBars 30 100 0) 30).iget.avg_volume then
        (analyzeCore (constBars 30 100 0) 30).iget.current_volume /
          (analyzeCore (constBars 30 100 0) 30).iget.avg_volume else 1) ∧
    (analyzeCore (constBars 30 100 0) 30).iget.volume_strength =
      (if (1.5 : ℚ) < (analyzeCore (constBars 30 100 0) 30).iget.volume_ratio then 3
        else if (1.2 : ℚ) < (analyzeCore (constBars 30 100 0) 30).iget.volume_ratio then 2
        else if (1 : ℚ) < (analyzeCore (constBars 30 100 0) 30).iget.volume_ratio then 1 else 0) :=
  C6_volume_guard (constBars 30 100 0) 30 (analyzeCore (constBars 30 100 0) 30).iget (by decide)

/-- C7: a computational fault inside the per-window analysis is caught and
turned into the neutral default carrying the diagnostic string, and the
orchestrator still records an entry for every window in TIMEFRAMES and
returns a success value, never escalating to GENERAL_ERROR. -/
theorem C7_fault_containment (df : List Bar) (minutes : ℕ)
    (hguard : minutes ≤ df.length) (hfault : analyzeCore df minutes = none) :
    analyze_timeframe (some df) minutes =
      { signal := Signal.NEUTRAL, change := PF.num 0,
        indicators := { confidence := 50, expiration := minutes },
        error := some "Analysis error" } ∧
    (∀ bars : List Bar, bars ≠ [] →
      ∃ a : MarketAnalysis, analyze_market (some bars) = MarketOutcome.ok a ∧
        a.timeframes.map Prod.fst = TIMEFRAMES) := by
  constructor
  · simp only [analyze_timeframe]
    rw [if_neg (by omega), hfault]
  · intro bars hne
    obtain ⟨c, hc⟩ : ∃ c, (bars.map Bar.close).getLast? = some c := by
      cases hb : (bars.map Bar.close).getLast? with
      | some c => exact ⟨c, rfl⟩
      | none =>
        rw [List.getLast?_eq_none_iff, List.map_eq_nil_iff] at hb
        exact absurd hb hne
    simp only [analyze_market]
    rw [hc]
    exact ⟨_, rfl, rfl⟩

/-- Witness for C7: a one-row frame scored for 1 minute hits the
macd.iloc[-2] IndexError. -/
theorem C7_fault_containment_witness :
    analyze_timeframe (some (constBars 1 100 10)) 1 =
      { signal := Signal.NEUTRAL, change := PF.num 0,
        indicators := { confidence := 50, expiration := 1 },
        error := some "Analysis error" } ∧
    (∀ bars : List Bar, bars ≠ [] →
      ∃ a : MarketAnalysis, analyze_market (some bars) = MarketOutcome.ok a ∧
        a.timeframes.map Prod.fst = TIMEFRAMES) :=
  C7_fault_containment (constBars 1 100 10) 1 (by decide) (by decide)

lemma qabs_eq_abs (q : ℚ) : qabs q = |q| := by
  unfold qabs
  split
  · rename_i hq
    exact (abs_of_neg hq).symm
  · rename_i hq
    push_neg at hq
    exact (abs_of_nonneg hq).symm

lemma ratFloor_intCast (k : ℤ) : ratFloor (k : ℚ) = k := by
  unfold ratFloor
  rw [Rat.num_intCast, Rat.den_intCast]
  simp

lemma halfEven_intCast (k : ℤ) : halfEven (k : ℚ) = k := by
  simp only [halfEven, ratFloor_intCast, sub_self]
  norm_num

lemma pyRound_intCast (d : ℕ) (k : ℤ) : pyRound d (k : ℚ) = (k : ℚ) := by
  unfold pyRound
  have h : (k : ℚ) * 10 ^ d = ((k * 10 ^ d : ℤ) : ℚ) := by push_cast; ring
  rw [h, halfEven_intCast]
  push_cast
  rw [mul_div_assoc, div_self (by positivity), mul_one]

/-- Confidence is 5 times an integer plus 50, so the 1-digit rounding on
the reported confidence is the identity. -/
lemma qabs_ts_eq (S : ℤ) (vs : ℕ) :
    qabs ((S : ℚ) * (1 + (vs : ℚ) * 0.2)) * 5 = ((S.natAbs * (5 + vs) : ℕ) : ℚ) := by
  have hpos : (0 : ℚ) ≤ 1 + (vs : ℚ) * 0.2 := by positivity
  rw [qabs_eq_abs, abs_mul, abs_of_nonneg hpos]
  have habs : |(S : ℚ)| = ((S.natAbs : ℕ) : ℚ) := by
    rw [Int.cast_natAbs, Int.cast_abs]
  rw [habs]
  push_cast
  ring

lemma qmax50_eq (N : ℕ) : qmax 50 (50 + (N : ℚ)) = 50 + (N : ℚ) := by
  have h0 : (0 : ℚ) ≤ (N : ℚ) := Nat.cast_nonneg N
  unfold qmax
  rw [if_pos (by linarith)]

lemma pyRound_confidence (N : ℕ) :
    pyRound 1 (qmin 95 (qmax 50 (50 + (N : ℚ)))) = qmin 95 (qmax 50 (50 + (N : ℚ))) := by
  rw [qmax50_eq]
  unfold qmin
  split
  · have h : (95 : ℚ) = ((95 : ℤ) : ℚ) := by norm_num
    rw [h, pyRound_intCast]
  · have h : (50 : ℚ) + (N : ℚ) = (((50 + N : ℕ) : ℤ) : ℚ) := by push_cast; ring
    rw [h, pyRound_intCast]

lemma conf_bounds (N : ℕ) :
    50 ≤ qmin 95 (qmax 50 (50 + (N : ℚ))) ∧ qmin 95 (qmax 50 (50 + (N : ℚ))) ≤ 95 := by
  have h0 : (0 : ℚ) ≤ (N : ℚ) := Nat.cast_nonneg N
  unfold qmin qmax
  split_ifs <;> constructor <;> linarith

lemma conf_mono {a b : ℚ} (ha : 0 ≤ a) (h : a ≤ b) :
    qmin 95 (qmax 50 (50 + a * 5)) ≤ qmin 95 (qmax 50 (50 + b * 5)) := by
  unfold qmin qmax
  split_ifs <;> linarith

/-- The reported confidence of a successful window equals the clamp
formula at that window's trend strength. -/
lemma reported_confidence (df : List Bar) (m : ℕ) (o : CoreOut)
    (h : analyzeCore df m = some o) (hg : m ≤ df.length) :
    (analyze_timeframe (some df) m).indicators.confidence =
      qmin 95 (qmax 50 (50 + qabs o.trend_strength * 5)) := by
  obtain ⟨-, hts, hconf, -, -, -, -⟩ := coreOut_spec df m o h
  have hrep : (analyze_timeframe (some df) m).indicators.confidence = pyRound 1 o.confidence := by
    simp only [analyze_timeframe]
    rw [if_neg (by omega), h]
  rw [hrep, hconf, hts, qabs_ts_eq]
  exact pyRound_confidence _

/-- C4: the reported confidence equals clamp(50 + trend-strength magnitude
times 5, 50, 95); it always lies in the interval [50, 95] on every path,
and is monotone in the trend-strength magnitude. -/
theorem C4_confidence_formula (df1 df2 : List Bar) (m1 m2 : ℕ) (o1 o2 : CoreOut)
    (h1 : analyzeCore df1 m1 = some o1) (h2 : analyzeCore df2 m2 = some o2)
    (hg1 : m1 ≤ df1.length) (hg2 : m2 ≤ df2.length) :
    (analyze_timeframe (some df1) m1).indicators.confidence =
      qmin 95 (qmax 50 (50 + qabs o1.trend_strength * 5)) ∧
    (∀ df m, 50 ≤ (analyze_timeframe df m).indicators.confidence ∧
      (analyze_timeframe df m).indicators.confidence ≤ 95) ∧
    (qabs o1.trend_strength ≤ qabs o2.trend_strength →
      (analyze_timeframe (some df1) m1).indicators.confidence ≤
        (analyze_timeframe (some df2) m2).indicators.confidence) := by
  refine ⟨reported_confidence df1 m1 o1 h1 hg1, fun df m => ?_, fun hmono => ?_⟩
  · cases df with
    | none => constructor <;> norm_num [analyze_timeframe]
    | some d =>
      by_cases hlen : d.length < m
      · simp only [analyze_timeframe]
        rw [if_pos hlen]
        constructor <;> norm_num
      · cases hcore : analyzeCore d m with
        | none =>
          simp only [analyze_timeframe]
          rw [if_neg hlen, hcore]
          constructor <;> norm_num
        | some o =>
          obtain ⟨-, hts, -, -, -, -, -⟩ := coreOut_spec d m o hcore
          rw [reported_confidence d m o hcore (by omega), hts, qabs_ts_eq]
          exact conf_bounds _
  · rw [reported_confidence df1 m1 o1 h1 hg1, reported_confidence df2 m2 o2 h2 hg2]
    exact conf_mono (qabs_nonneg o1.trend_strength) hmono

/-- Witness for C4 at two copies of a concrete 30-sample window. -/
theorem C4_confidence_formula_witness :
    ((analyze_timeframe (some (constBars 30 100 10)) 30).indicators.confidence =
      qmin 95 (qmax 50 (50 + qabs (analyzeCore (constBars 30 100 10) 30).iget.trend_strength * 5)) ∧
    (∀ df m, 50 ≤ (analyze_timeframe df m).indicators.confidence ∧
      (analyze_timeframe df m).indicators.confidence ≤ 95) ∧
    (qabs (analyzeCore (constBars 30 100 10) 30).iget.trend_strength ≤
        qabs (analyzeCore (constBars 30 100 10) 30).iget.trend_strength →
      (analyze_timeframe (some (constBars 30 100 10)) 30).indicators.confidence ≤
        (analyze_timeframe (some (constBars 30 100 10)) 30).indicators.confidence)) :=
  C4_confidence_formula (constBars 30 100 10) (constBars 30 100 10) 30 30
    (analyzeCore (constBars 30 100 10) 30).iget (analyzeCore (constBars 30 100 10) 30).iget
    (by decide) (by decide) (by decide) (by decide)

lemma emaSignals_cases (x : PF) :
    emaSignals x = [] ∨ emaSignals x = [1] ∨ emaSignals x = [-1] := by
  unfold emaSignals
  split_ifs <;> simp

lemma macdSignals_cases (a b : ℚ) :
    macdSignals a b = [1] ∨ macdSignals a b = [1, 1] ∨
    macdSignals a b = [-1] ∨ macdSignals a b = [-1, -1] := by
  unfold macdSignals
  split_ifs <;> simp

lemma rsiSignals_cases (x : PF) :
    rsiSignals x = [2, 1] ∨ rsiSignals x = [-2, -1] ∨ rsiSignals x = [1] ∨
    rsiSignals x = [-1] ∨ rsiSignals x = [] := by
  unfold rsiSignals
  split_ifs <;> simp

lemma bbSignals_fst_cases (c : ℚ) (lo hi : BVal) :
    (bbSignals c lo hi).1 = [2] ∨ (bbSignals c lo hi).1 = [-2] ∨ (bbSignals c lo hi).1 = [] := by
  unfold bbSignals
  split_ifs <;> simp

/-- C9: every contribution of the signal vector lies in the set
-2, -1, 1, 2; the EMA, MACD, RSI and Bollinger rules contribute sums of
magnitude at most 1, 2, 3 and 2 respectively; the total lies in [-8, 8];
and the volume-weighted trend strength lies in [-12.8, 12.8]. -/
theorem C9_signal_vector_invariant (df : List Bar) (minutes : ℕ) (o : CoreOut)
    (h : analyzeCore df minutes = some o) :
    (∀ s ∈ o.trend_signals, s = -2 ∨ s = -1 ∨ s = 1 ∨ s = 2) ∧
    (-1 ≤ (emaSignals o.ema_diff_percent).sum ∧ (emaSignals o.ema_diff_percent).sum ≤ 1) ∧
    (-2 ≤ (macdSignals o.macd_diff o.macd_trend).sum ∧
      (macdSignals o.macd_diff o.macd_trend).sum ≤ 2) ∧
    (-3 ≤ (rsiSignals o.last_rsi).sum ∧ (rsiSignals o.last_rsi).sum ≤ 3) ∧
    (-2 ≤ ((bbSignals o.current_price o.lower_last o.upper_last).1).sum ∧
      ((bbSignals o.current_price o.lower_last o.upper_last).1).sum ≤ 2) ∧
    (-8 ≤ o.trend_signals.sum ∧ o.trend_signals.sum ≤ 8) ∧
    (-(12.8 : ℚ) ≤ o.trend_strength ∧ o.trend_strength ≤ 12.8) := by
  obtain ⟨hsigs, hts, -, -, -, hvs, -⟩ := coreOut_spec df minutes o h
  have he2 : -1 ≤ (emaSignals o.ema_diff_percent).sum ∧ (emaSignals o.ema_diff_percent).sum ≤ 1 := by
    rcases emaSignals_cases o.ema_diff_percent with he|he|he <;> rw [he] <;> decide
  have hm2 : -2 ≤ (macdSignals o.macd_diff o.macd_trend).sum ∧
      (macdSignals o.macd_diff o.macd_trend).sum ≤ 2 := by
    rcases macdSignals_cases o.macd_diff o.macd_trend with hm|hm|hm|hm <;> rw [hm] <;> decide
  have hr2 : -3 ≤ (rsiSignals o.last_rsi).sum ∧ (rsiSignals o.last_rsi).sum ≤ 3 := by
    rcases rsiSignals_cases o.last_rsi with hr|hr|hr|hr|hr <;> rw [hr] <;> decide
  have hb2 : -2 ≤ ((bbSignals o.current_price o.lower_last o.upper_last).1).sum ∧
      ((bbSignals o.current_price o.lower_last o.upper_last).1).sum ≤ 2 := by
    rcases bbSignals_fst_cases o.current_price o.lower_last o.upper_last with hb|hb|hb <;>
      rw [hb] <;> decide
  have hmem : ∀ s ∈ o.trend_signals, s = -2 ∨ s = -1 ∨ s = 1 ∨ s = 2 := by
    rw [hsigs]
    intro s hs
    rcases List.mem_append.mp hs with hs3|hsb
    · rcases List.mem_append.mp hs3 with hs2|hsr
      · rcases List.mem_append.mp hs2 with hse|hsm
        · rcases emaSignals_cases o.ema_diff_percent with he|he|he <;>
            rw [he] at hse <;> simp at hse <;> omega
        · rcases macdSignals_cases o.macd_diff o.macd_trend with hm|hm|hm|hm <;>
            rw [hm] at hsm <;> simp at hsm <;> omega
      · rcases rsiSignals_cases o.last_rsi with hr|hr|hr|hr|hr <;>
          rw [hr] at hsr <;> simp at hsr <;> omega
    · rcases bbSignals_fst_cases o.current_price o.lower_last o.upper_last with hb|hb|hb <;>
        rw [hb] at hsb <;> simp at hsb <;> omega
  have hsum : -8 ≤ o.trend_signals.sum ∧ o.trend_signals.sum ≤ 8 := by
    rw [hsigs]
    simp only [List.sum_append]
    omega
  have hvs3 : (0 : ℚ) ≤ (o.volume_strength : ℚ) ∧ (o.volume_strength : ℚ) ≤ 3 := by
    refine ⟨Nat.cast_nonneg _, ?_⟩
    have : o.volume_strength ≤ 3 := by
      rw [hvs]
      split_ifs <;> omega
    exact_mod_cast this
  have htsb : -(12.8 : ℚ) ≤ o.trend_strength ∧ o.trend_strength ≤ 12.8 := by
    rw [hts]
    have hc1 : ((o.trend_signals.sum : ℤ) : ℚ) ≤ 8 := by exact_mod_cast hsum.2
    have hc2 : (-8 : ℚ) ≤ ((o.trend_signals.sum : ℤ) : ℚ) := by exact_mod_cast hsum.1
    have hw1 : (1 : ℚ) ≤ 1 + (o.volume_strength : ℚ) * 0.2 := by nlinarith [hvs3.1]
    have hw2 : 1 + (o.volume_strength : ℚ) * 0.2 ≤ 1.6 := by nlinarith [hvs3.2]
    have hwpos : (0 : ℚ) ≤ 1 + (o.volume_strength : ℚ) * 0.2 := by linarith
    constructor
    · have hlow : (-8 : ℚ) * (1 + (o.volume_strength : ℚ) * 0.2) ≤
          ((o.trend_signals.sum : ℤ) : ℚ) * (1 + (o.volume_strength : ℚ) * 0.2) :=
        mul_le_mul_of_nonneg_right hc2 hwpos
      nlinarith
    · have hhigh : ((o.trend_signals.sum : ℤ) : ℚ) * (1 + (o.volume_strength : ℚ) * 0.2) ≤
          8 * (1 + (o.volume_strength : ℚ) * 0.2) :=
        mul_le_mul_of_nonneg_right hc1 hwpos
      nlinarith
  exact ⟨hmem, he2, hm2, hr2, hb2, hsum, htsb⟩

/-- Witness for C9 at a concrete 30-sample window. -/
theorem C9_signal_vector_invariant_witness :
    (∀ s ∈ (analyzeCore (constBars 30 100 10) 30).iget.trend_signals,
      s = -2 ∨ s = -1 ∨ s = 1 ∨ s = 2) ∧
    (-1 ≤ (emaSignals (analyzeCore (constBars 30 100 10) 30).iget.ema_diff_percent).sum ∧
      (emaSignals (analyzeCore (constBars 30 100 10) 30).iget.ema_diff_percent).sum ≤ 1) ∧
    (-2 ≤ (macdSignals (analyzeCore (constBars 30 100 10) 30).iget.macd_diff
        (analyzeCore (constBars 30 100 10) 30).iget.macd_trend).sum ∧
      (macdSignals (analyzeCore (constBars 30 100 10) 30).iget.macd_diff
        (analyzeCore (constBars 30 100 10) 30).iget.macd_trend).sum ≤ 2) ∧
    (-3 ≤ (rsiSignals (analyzeCore (constBars 30 100 10) 30).iget.last_rsi).sum ∧
      (rsiSignals (analyzeCore (constBars 30 100 10) 30).iget.last_rsi).sum ≤ 3) ∧
    (-2 ≤ ((bbSignals (analyzeCore (constBars 30 100 10) 30).iget.current_price
        (analyzeCore (constBars 30 100 10) 30).iget.lower_last
        (analyzeCore (constBars 30 100 10) 30).iget.upper_last).1).sum ∧
      ((bbSignals (analyzeCore (constBars 30 100 10) 30).iget.current_price
        (analyzeCore (constBars 30 100 10) 30).iget.lower_last
        (analyzeCore (constBars 30 100 10) 30).iget.upper_last).1).sum ≤ 2) ∧
    (-8 ≤ (analyzeCore (constBars 30 100 10) 30).iget.trend_signals.sum ∧
      (analyzeCore (constBars 30 100 10) 30).iget.trend_signals.sum ≤ 8) ∧
    (-(12.8 : ℚ) ≤ (analyzeCore (constBars 30 100 10) 30).iget.trend_strength ∧
      (analyzeCore (constBars 30 100 10) 30).iget.trend_strength ≤ 12.8) :=
  C9_signal_vector_invariant (constBars 30 100 10) 30
    (analyzeCore (constBars 30 100 10) 30).iget (by decide)

lemma ewmFrom_getD_succ (a p : ℚ) (ys : List ℚ) (j : ℕ) (hj : j + 1 < ys.length) :
    (ewmFrom a p ys).getD (j + 1) 0 =
      a * ys.getD (j + 1) 0 + (1 - a) * (ewmFrom a p ys).getD j 0 := by
  induction ys generalizing p j with
  | nil => simp at hj
  | cons y ys ih =>
    simp only [ewmFrom, List.getD_cons_succ]
    cases j with
    | zero =>
      cases ys with
      | nil => simp at hj
      | cons z ys2 => simp [ewmFrom]
    | succ k =>
      rw [ih _ k (by simp at hj; omega)]
      simp

/-- C8: the embedded pandas ewm(span=period, adjust=False) mean satisfies,
at every index of a nonempty series, exactly the recurrence the spec
states: ema[0] = series[0] and ema[i] = alpha * series[i] +
(1 - alpha) * ema[i-1] with alpha = 2/(period+1). -/
theorem C8_ema_recurrence (xs : List ℚ) (period : ℕ) (hne : xs ≠ [])
    (i : ℕ) (hi : i < xs.length) :
    (calculate_ema xs period).getD i 0 = emaSpecFun (2 / ((period : ℚ) + 1)) xs i := by
  cases xs with
  | nil => exact absurd rfl hne
  | cons x rest =>
    induction i with
    | zero => rfl
    | succ j ihj =>
      have hrec := ihj (by simp at hi ⊢; omega)
      simp only [calculate_ema, ewmMean] at hrec ⊢
      simp only [emaSpecFun]
      rw [← hrec]
      cases j with
      | zero =>
        cases rest with
        | nil => simp at hi
        | cons y rest2 => simp [ewmFrom]
      | succ k =>
        simp only [List.getD_cons_succ]
        exact ewmFrom_getD_succ _ x rest k (by simp at hi; omega)

/-- Witness for C8 at a concrete three-sample series, period 3, index 2. -/
theorem C8_ema_recurrence_witness :
    (calculate_ema [1, 2, 4] 3).getD 2 0 = emaSpecFun (2 / ((3 : ℚ) + 1)) [1, 2, 4] 2 :=
  C8_ema_recurrence [1, 2, 4] 3 (by decide) 2 (by decide)

lemma rollingMean_length (w : ℕ) (xs : List ℚ) : (rollingMean w xs).length = xs.length := by
  simp [rollingMean]

lemma rollingVar_length (w : ℕ) (xs : List ℚ) : (rollingVar w xs).length = xs.length := by
  simp [rollingVar]

lemma seriesDiff_eq (xs : List ℚ) (hne : xs ≠ []) :
    seriesDiff xs = .nan :: List.zipWith (fun b a => PF.num (b - a)) xs.tail xs := by
  cases xs with
  | nil => exact absurd rfl hne
  | cons x rest => rfl

lemma seriesDiff_length (xs : List ℚ) : (seriesDiff xs).length = xs.length := by
  cases xs with
  | nil => rfl
  | cons x rest => simp [seriesDiff]

lemma rollingMean_getLast (w : ℕ) (xs : List ℚ) (hne : xs ≠ []) (hw : w ≤ xs.length) :
    (rollingMean w xs).getLast? = some (.num (listMean (xs.drop (xs.length - w)))) := by
  have hpos : 0 < xs.length := List.length_pos.mpr hne
  rw [List.getLast?_eq_getElem?, rollingMean_length]
  unfold rollingMean
  rw [List.getElem?_map, List.getElem?_range (by omega)]
  simp only [Option.map_some']
  rw [if_pos (by omega), show xs.length - 1 + 1 = xs.length from by omega, List.take_length]

lemma rollingVar_getLast (w : ℕ) (xs : List ℚ) (hne : xs ≠ []) (hw : w ≤ xs.length)
    (h2 : 2 ≤ w) :
    (rollingVar w xs).getLast? = some (.num (sampleVar (xs.drop (xs.length - w)))) := by
  have hpos : 0 < xs.length := List.length_pos.mpr hne
  rw [List.getLast?_eq_getElem?, rollingVar_length]
  unfold rollingVar
  rw [List.getElem?_map, List.getElem?_range (by omega)]
  simp only [Option.map_some']
  rw [if_pos (by omega), show xs.length - 1 + 1 = xs.length from by omega, List.take_length]

lemma getLast?_zipWith {α β γ : Type} (f : α → β → γ) (as : List α) (bs : List β)
    (hlen : as.length = bs.length) (a : α) (b : β)
    (ha : as.getLast? = some a) (hb : bs.getLast? = some b) :
    (List.zipWith f as bs).getLast? = some (f a b) := by
  rw [List.getLast?_eq_getElem?] at ha hb ⊢
  rw [List.length_zipWith, hlen, Nat.min_self, List.getElem?_zipWith, hlen] at *
  rw [ha, hb]

/-- Dropping all but the last w entries of the diff column of pre ++ t
leaves exactly the pairwise differences of t, when the cut lands one
position into t. -/
lemma seriesDiff_append_drop (pre t : List ℚ) (hne : t ≠ []) :
    (seriesDiff (pre ++ t)).drop (pre.length + 1) =
      List.zipWith (fun b a => PF.num (b - a)) t.tail t := by
  have hne2 : pre ++ t ≠ [] := by simp [hne]
  rw [seriesDiff_eq _ hne2, List.drop_succ_cons, List.drop_zipWith]
  have h1 : (pre ++ t).drop pre.length = t := List.drop_left pre t
  have h2 : (pre ++ t).tail.drop pre.length = t.tail := by
    rw [← List.drop_one, List.drop_drop, Nat.add_comm 1 pre.length, ← List.drop_drop, h1,
      List.drop_one]
  rw [h1, h2]

lemma gains_sum_of_chain (t : List ℚ) (hc : List.Chain' (· ≤ ·) t) (z : ℚ)
    (hz : t.getLast? = some z) :
    ((List.zipWith (fun b a => PF.num (b - a)) t.tail t).map whereGain).sum = z - t.headI := by
  induction t with
  | nil => simp at hz
  | cons a t ih =>
    cases t with
    | nil =>
      simp at hz
      simp [hz]
    | cons b t2 =>
      obtain ⟨hab, hc2⟩ := List.chain'_cons.mp hc
      have hz2 : (b :: t2).getLast? = some z := by rwa [List.getLast?_cons_cons] at hz
      have ihv := ih hc2 hz2
      simp only [List.tail_cons] at ihv ⊢
      have hstep : whereGain (.num (b - a)) = b - a := by
        show (if 0 < b - a then b - a else 0) = b - a
        split
        · rfl
        · rename_i hlt
          push_neg at hlt
          linarith
      simp only [List.zipWith_cons_cons, List.map_cons, List.sum_cons, hstep, ihv]
      simp only [List.headI]
      ring

lemma losses_sum_of_chain (t : List ℚ) (hc : List.Chain' (· ≤ ·) t) :
    ((List.zipWith (fun b a => PF.num (b - a)) t.tail t).map whereLoss).sum = 0 := by
  induction t with
  | nil => simp
  | cons a t ih =>
    cases t with
    | nil => simp
    | cons b t2 =>
      obtain ⟨hab, hc2⟩ := List.chain'_cons.mp hc
      have ihv := ih hc2
      simp only [List.tail_cons] at ihv ⊢
      have hstep : whereLoss (.num (b - a)) = 0 := by
        show (if b - a < 0 then -(b - a) else 0) = 0
        rw [if_neg (by linarith)]
      simp only [List.zipWith_cons_cons, List.map_cons, List.sum_cons, hstep, ihv]
      ring

/-- C10: when over the RSI lookback every successive difference is
nonnegative and at least one is strictly positive (the last 15 samples
form a nondecreasing run that ends strictly above its start), the rolling
loss average is 0 and the gain average positive, so the unguarded division
rs = gain/loss yields positive infinity rather than faulting, the RSI
evaluates to exactly 100, and the RSI rule classifies the window as
overbought, appending the contributions -2 and -1. -/
theorem C10_rsi_saturation (pre t : List ℚ) (hlen : t.length = 15)
    (hchain : List.Chain' (· ≤ ·) t) (z : ℚ) (hz : t.getLast? = some z)
    (hstrict : t.headI < z) :
    (rsSeries (pre ++ t) 14).getLast? = some PF.inf ∧
    (calculate_rsi (pre ++ t) 14).getLast? = some (PF.num 100) ∧
    rsiSignals (PF.num 100) = [-2, -1] := by
  have hne : t ≠ [] := by
    intro h
    rw [h] at hlen
    simp at hlen
  have hL : (pre ++ t).length = pre.length + 15 := by simp [hlen]
  have hdlen : (seriesDiff (pre ++ t)).length = pre.length + 15 := by
    rw [seriesDiff_length, hL]
  have hdrop : (seriesDiff (pre ++ t)).drop (pre.length + 1) =
      List.zipWith (fun b a => PF.num (b - a)) t.tail t := seriesDiff_append_drop pre t hne
  have hwin : ∀ g : PF → ℚ, ((seriesDiff (pre ++ t)).map g).drop
        (((seriesDiff (pre ++ t)).map g).length - 14) =
      (List.zipWith (fun b a => PF.num (b - a)) t.tail t).map g := by
    intro g
    rw [List.length_map, hdlen, show pre.length + 15 - 14 = pre.length + 1 from by omega,
      ← List.map_drop, hdrop]
  have hwlen : (List.zipWith (fun b a => PF.num (b - a)) t.tail t).length = 14 := by
    rw [List.length_zipWith, List.length_tail, hlen]
    omega
  have hgmean : listMean ((List.zipWith (fun b a => PF.num (b - a)) t.tail t).map whereGain) =
      (z - t.headI) / 14 := by
    unfold listMean
    rw [gains_sum_of_chain t hchain z hz, List.length_map, hwlen]
    norm_num
  have hlmean : listMean ((List.zipWith (fun b a => PF.num (b - a)) t.tail t).map whereLoss) =
      0 := by
    unfold listMean
    rw [losses_sum_of_chain t hchain]
    simp
  have hgpos : (0 : ℚ) < (z - t.headI) / 14 := by
    apply div_pos (by linarith) (by norm_num)
  have hgne : ((seriesDiff (pre ++ t)).map whereGain) ≠ [] := by
    intro h
    have := congrArg List.length h
    simp [hdlen] at this
  have hlne : ((seriesDiff (pre ++ t)).map whereLoss) ≠ [] := by
    intro h
    have := congrArg List.length h
    simp [hdlen] at this
  have hgl : (rollingMean 14 ((seriesDiff (pre ++ t)).map whereGain)).getLast? =
      some (.num ((z - t.headI) / 14)) := by
    rw [rollingMean_getLast 14 _ hgne (by simp [hdlen]), hwin whereGain, hgmean]
  have hll : (rollingMean 14 ((seriesDiff (pre ++ t)).map whereLoss)).getLast? =
      some (.num 0) := by
    rw [rollingMean_getLast 14 _ hlne (by simp [hdlen]), hwin whereLoss, hlmean]
  have hdivinf : PF.div (.num ((z - t.headI) / 14)) (.num 0) = .inf := by
    show (if (0 : ℚ) = 0 then
        (if (z - t.headI) / 14 = 0 then PF.nan
          else if 0 < (z - t.headI) / 14 then PF.inf else PF.ninf)
      else PF.num ((z - t.headI) / 14 / 0)) = PF.inf
    rw [if_pos rfl, if_neg (ne_of_gt hgpos), if_pos hgpos]
  have hrs : (rsSeries (pre ++ t) 14).getLast? = some PF.inf := by
    unfold rsSeries
    rw [getLast?_zipWith PF.div _ _ (by rw [rollingMean_length, rollingMean_length]; simp)
      _ _ hgl hll, hdivinf]
  refine ⟨hrs, ?_, by decide⟩
  unfold calculate_rsi
  rw [List.getLast?_map, hrs]
  decide

/-- Witness for C10: an empty prefix and fifteen strictly rising samples. -/
theorem C10_rsi_saturation_witness :
    (rsSeries ([] ++ [1, 2, 3, 4, 5, 6, 7, 8, 9, 10, 11, 12, 13, 14, 15]) 14).getLast? =
      some PF.inf ∧
    (calculate_rsi ([] ++ [1, 2, 3, 4, 5, 6, 7, 8, 9, 10, 11, 12, 13, 14, 15]) 14).getLast? =
      some (PF.num 100) ∧
    rsiSignals (PF.num 100) = [-2, -1] :=
  C10_rsi_saturation [] [1, 2, 3, 4, 5, 6, 7, 8, 9, 10, 11, 12, 13, 14, 15] (by decide)
    (by norm_num [List.chain'_cons]) 15 (by decide) (by decide)

lemma ewmFrom_const (a c : ℚ) (m : ℕ) :
    ewmFrom a c (List.replicate m c) = List.replicate m c := by
  induction m with
  | zero => rfl
  | succ k ih =>
    simp only [List.replicate_succ, ewmFrom]
    have he : a * c + (1 - a) * c = c := by ring
    rw [he, ih]

lemma ewmMean_const (p : ℕ) (c : ℚ) (n : ℕ) :
    ewmMean p (List.replicate n c) = List.replicate n c := by
  cases n with
  | zero => rfl
  | succ k =>
    simp only [List.replicate_succ, ewmMean]
    rw [ewmFrom_const]

lemma calculate_ema_const (c : ℚ) (n p : ℕ) :
    calculate_ema (List.replicate n c) p = List.replicate n c := ewmMean_const p c n

lemma calculate_macd_const (n : ℕ) (c : ℚ) :
    calculate_macd (List.replicate n c) = (List.replicate n 0, List.replicate n 0) := by
  simp only [calculate_macd]
  rw [ewmMean_const, ewmMean_const, List.zipWith_replicate', sub_self, ewmMean_const]

lemma zipWith_shift_const (f : ℚ → ℚ → PF) (c : ℚ) (n : ℕ) :
    List.zipWith f (List.replicate n c) (c :: List.replicate n c) =
      List.replicate n (f c c) := by
  induction n with
  | zero => rfl
  | succ k ih =>
    simp only [List.replicate_succ, List.zipWith_cons_cons]
    rw [ih]

lemma seriesDiff_const (n : ℕ) (c : ℚ) :
    seriesDiff (List.replicate (n + 1) c) = .nan :: List.replicate n (PF.num 0) := by
  rw [List.replicate_succ]
  simp only [seriesDiff]
  rw [zipWith_shift_const]
  rw [sub_self]

lemma listMean_replicate (n : ℕ) (c : ℚ) (hn : n ≠ 0) :
    listMean (List.replicate n c) = c := by
  unfold listMean
  rw [List.sum_replicate, List.length_replicate, nsmul_eq_mul]
  have h : ((n : ℚ)) ≠ 0 := Nat.cast_ne_zero.mpr hn
  field_simp

lemma sampleVar_replicate (w : ℕ) (c : ℚ) (hw : w ≠ 0) :
    sampleVar (List.replicate w c) = 0 := by
  simp [sampleVar, listMean_replicate w c hw]

lemma replicate_ne_nil {α : Type} (n : ℕ) (x : α) (hn : n ≠ 0) :
    List.replicate n x ≠ [] := by
  intro h
  have := congrArg List.length h
  simp at this
  exact hn this

lemma getLast?_replicate_pos {α : Type} (n : ℕ) (x : α) (hn : n ≠ 0) :
    (List.replicate n x).getLast? = some x := by
  rw [List.getLast?_replicate, if_neg hn]

lemma head?_replicate_pos {α : Type} (n : ℕ) (x : α) (hn : n ≠ 0) :
    (List.replicate n x).head? = some x := by
  rw [List.head?_replicate, if_neg hn]

lemma ilocNeg2_replicate {α : Type} (n : ℕ) (x : α) (h : 2 ≤ n) :
    ilocNeg2 (List.replicate n x) = some x := by
  unfold ilocNeg2
  rw [List.reverse_replicate]
  obtain ⟨m, rfl⟩ : ∃ m, n = m + 1 + 1 := ⟨n - 2, by omega⟩
  rw [List.replicate_succ, List.replicate_succ]

lemma seriesDiff_map_const (g : PF → ℚ) (hgn : g .nan = 0) (hg0 : g (.num 0) = 0)
    (m : ℕ) (c : ℚ) :
    (seriesDiff (List.replicate (m + 1) c)).map g = List.replicate (m + 1) (0 : ℚ) := by
  rw [seriesDiff_const]
  simp [hgn, hg0, List.map_replicate, List.replicate_succ]

lemma rollingMean_zero_getLast (N : ℕ) (hN : 14 ≤ N) :
    (rollingMean 14 (List.replicate N (0 : ℚ))).getLast? = some (.num 0) := by
  rw [rollingMean_getLast 14 _ (replicate_ne_nil N 0 (by omega)) (by simp; omega)]
  rw [List.length_replicate, List.drop_replicate,
    listMean_replicate _ 0 (by omega)]

lemma calculate_rsi_const_getLast (n : ℕ) (c : ℚ) (hn : 15 ≤ n) :
    (calculate_rsi (List.replicate n c) 14).getLast? = some PF.nan := by
  obtain ⟨m, rfl⟩ : ∃ m, n = m + 1 := ⟨n - 1, by omega⟩
  have hg : (seriesDiff (List.replicate (m + 1) c)).map whereGain =
      List.replicate (m + 1) (0 : ℚ) :=
    seriesDiff_map_const whereGain rfl (by norm_num [whereGain]) m c
  have hl : (seriesDiff (List.replicate (m + 1) c)).map whereLoss =
      List.replicate (m + 1) (0 : ℚ) :=
    seriesDiff_map_const whereLoss rfl (by norm_num [whereLoss]) m c
  have hrm := rollingMean_zero_getLast (m + 1) (by omega)
  have hrs : (rsSeries (List.replicate (m + 1) c) 14).getLast? =
      some (PF.div (.num 0) (.num 0)) := by
    simp only [rsSeries]
    rw [hg, hl]
    exact getLast?_zipWith PF.div _ _ rfl _ _ hrm hrm
  unfold calculate_rsi
  rw [List.getLast?_map, hrs]
  decide

lemma bollinger_const_getLast (n : ℕ) (c : ℚ) (hn : 20 ≤ n) :
    ((calculate_bollinger_bands (List.replicate n c) 20).1).getLast? = some (.val c 2 0) ∧
    ((calculate_bollinger_bands (List.replicate n c) 20).2).getLast? = some (.val c (-2) 0) := by
  have hne := replicate_ne_nil n c (by omega)
  have hsma := rollingMean_getLast 20 (List.replicate n c) hne (by simp; omega)
  rw [List.length_replicate, List.drop_replicate,
    show n - (n - 20) = 20 from by omega, listMean_replicate 20 c (by omega)] at hsma
  have hvar := rollingVar_getLast 20 (List.replicate n c) hne (by simp; omega) (by omega)
  rw [List.length_replicate, List.drop_replicate,
    show n - (n - 20) = 20 from by omega, sampleVar_replicate 20 c (by omega)] at hvar
  simp only [calculate_bollinger_bands]
  constructor
  · rw [getLast?_zipWith _ _ _ (by rw [rollingMean_length, rollingVar_length]) _ _ hsma hvar]
  · rw [getLast?_zipWith _ _ _ (by rw [rollingMean_length, rollingVar_length]) _ _ hsma hvar]

lemma constBars_close (n : ℕ) (c v : ℚ) :
    ((constBars n c v).drop ((constBars n c v).length - n)).map Bar.close =
      List.replicate n c := by
  unfold constBars
  rw [List.length_replicate, Nat.sub_self, List.drop_zero, List.map_replicate]

lemma constBars_volume (n : ℕ) (c v : ℚ) :
    ((constBars n c v).drop ((constBars n c v).length - n)).map Bar.volume =
      List.replicate n v := by
  unfold constBars
  rw [List.length_replicate, Nat.sub_self, List.drop_zero, List.map_replicate]

lemma extractLast_const (n : ℕ) (c v : ℚ) (hn : 20 ≤ n) :
    extractLast (constBars n c v) n =
      some ⟨c, c, v, c, c, .nan, 0, 0, 0, .val c 2 0, .val c (-2) 0⟩ := by
  have hn0 : n ≠ 0 := by omega
  obtain ⟨hub, hlb⟩ := bollinger_const_getLast n c hn
  simp only [extractLast, constBars_close, constBars_volume, calculate_ema_const,
    calculate_macd_const]
  rw [head?_replicate_pos n c hn0, getLast?_replicate_pos n c hn0,
    getLast?_replicate_pos n v hn0, getLast?_replicate_pos n (0 : ℚ) hn0,
    ilocNeg2_replicate n (0 : ℚ) (by omega),
    calculate_rsi_const_getLast n c (by omega), hub, hlb]

lemma analyzeCore_const (n : ℕ) (c v : ℚ) (hn : 20 ≤ n) :
    analyzeCore (constBars n c v) n =
      some (buildCore c c v v c c .nan 0 0 0 (.val c 2 0) (.val c (-2) 0)) := by
  unfold analyzeCore
  rw [extractLast_const n c v hn]
  simp only [Option.map_some']
  rw [show listMean (((constBars n c v).drop ((constBars n c v).length - n)).map Bar.volume) = v
    from by rw [constBars_volume, listMean_replicate n v (by omega)]]

lemma buildCore_const_eval (c v : ℚ) (hc : c ≠ 0) :
    buildCore c c v v c c .nan 0 0 0 (.val c 2 0) (.val c (-2) 0) = constCoreOut c v := by
  have hdiv : PF.div (.num 0) (.num c) = .num 0 := by
    show (if c = 0 then (if (0 : ℚ) = 0 then PF.nan else if 0 < (0 : ℚ) then PF.inf else PF.ninf)
      else PF.num (0 / c)) = PF.num 0
    rw [if_neg hc, zero_div]
  have hvr : (if 0 < v then v / v else 1) = 1 := by
    split
    · rename_i hv
      exact div_self (ne_of_gt hv)
    · rfl
  have hvs : (if (1.5 : ℚ) < 1 then (3 : ℕ) else if (1.2 : ℚ) < 1 then 2
      else if (1 : ℚ) < 1 then 1 else 0) = 0 := by norm_num
  have hbb : bbSignals c (.val c (-2) 0) (.val c 2 0) = ([], BBPos.normal) := by
    have h1 : qltBand c (.val c (-2) 0) = false := by
      show (if (0 : ℚ) = 0 ∨ (-2 : ℚ) = 0 then decide (c - c < 0)
        else if 0 < (-2 : ℚ) then decide (c - c < 0) || decide ((c - c) * (c - c) < -2 * -2 * 0)
        else decide (c - c < 0 ∧ -2 * -2 * 0 < (c - c) * (c - c))) = false
      rw [if_pos (Or.inl rfl), sub_self]
      norm_num
    have h2 : qgtBand c (.val c 2 0) = false := by
      show (if (0 : ℚ) = 0 ∨ (2 : ℚ) = 0 then decide (0 < c - c)
        else if 0 < (2 : ℚ) then decide (0 < c - c ∧ 2 * 2 * 0 < (c - c) * (c - c))
        else decide (0 < c - c) || decide ((c - c) * (c - c) < 2 * 2 * 0)) = false
      rw [if_pos (Or.inl rfl), sub_self]
      norm_num
    unfold bbSignals
    rw [h1, h2]
    simp
  have hmul : PF.mul (PF.num 0) (PF.num 100) = PF.num 0 := by decide
  simp only [buildCore, sub_self, hdiv, hmul, hvr, hvs, hbb]
  have hema : emaSignals (PF.num 0) = [] := by decide
  have hmacd : macdSignals 0 0 = [-1] := by decide
  have hrsi : rsiSignals PF.nan = [] := by decide
  rw [hema, hmacd, hrsi]
  simp only [List.nil_append, List.append_nil]
  have hsum : (([-1] : List ℤ).sum : ℚ) = -1 := by decide
  have hts : ((([-1] : List ℤ).sum : ℤ) : ℚ) * (1 + ((0 : ℕ) : ℚ) * 0.2) = -1 := by
    push_cast
    norm_num
  rw [hts]
  have hconf : qmin 95 (qmax 50 (50 + qabs (-1) * 5)) = 55 := by
    norm_num [qabs, qmin, qmax]
  have hsig : (if (1.2 : ℚ) ≤ qabs (-1) then
      (if 0 < (-1 : ℚ) then Signal.BUY else Signal.SELL) else Signal.NEUTRAL) =
      Signal.NEUTRAL := by
    norm_num [qabs]
  rw [hconf, hsig]
  rfl

/-- C1 counterexample: on the 30-sample constant window of the TIMEFRAMES
set the scorer reports confidence 55 rather than 50 (the MACD rule's
else-branch appends -1 at macd_diff = 0), and on the 5-sample constant
window the Bollinger bands are NaN rather than collapsed to the constant,
so the claim fails as stated. -/
theorem C1_counterexample :
    (analyze_timeframe (some (constBars 30 100 10)) 30).indicators.confidence ≠ 50 ∧
    (analyzeCore (constBars 5 100 10) 5).iget.upper_last = BVal.nan := by
  constructor
  · decide
  · decide

/-- C1 amended: on every constant window of length at least 20 (so that
every consulted indicator window is full) with nonzero close, the scorer
does not fault: price change is 0, the Bollinger bands collapse to the
constant (radicand 0), MACD is 0, the signal is NEUTRAL — but the
confidence is 55, not 50, because the MACD rule appends -1 when
macd_diff = 0, leaving trend strength -1. -/
theorem C1_constant_window (n : ℕ) (c v : ℚ) (hn : 20 ≤ n) (hc : c ≠ 0) :
    analyze_timeframe (some (constBars n c v)) n =
      { signal := Signal.NEUTRAL, change := PF.num 0,
        indicators := { confidence := 55, expiration := n, rsi := some PF.nan,
                        macd := some 0, bb_position := some BBPos.normal },
        error := none } ∧
    analyzeCore (constBars n c v) n = some (constCoreOut c v) := by
  have hcore : analyzeCore (constBars n c v) n = some (constCoreOut c v) := by
    rw [analyzeCore_const n c v hn, buildCore_const_eval c v hc]
  refine ⟨?_, hcore⟩
  simp only [analyze_timeframe, constBars, List.length_replicate]
  rw [if_neg (Nat.lt_irrefl n)]
  have hcore2 : analyzeCore (List.replicate n { close := c, volume := v }) n =
      analyzeCore (constBars n c v) n := rfl
  rw [hcore2, hcore]
  have h55 : pyRound 1 55 = 55 := by
    have := pyRound_intCast 1 55
    norm_num at this
    convert this using 2
  have h0 : pyRound 4 0 = 0 := by
    have := pyRound_intCast 4 0
    norm_num at this
    convert this using 2
  simp [constCoreOut, pyRoundPF, h55, h0]

/-- Witness for C1 amended at n = 20, c = 100, v = 0. -/
theorem C1_constant_window_witness :
    analyze_timeframe (some (constBars 20 100 0)) 20 =
      { signal := Signal.NEUTRAL, change := PF.num 0,
        indicators := { confidence := 55, expiration := 20, rsi := some PF.nan,
                        macd := some 0, bb_position := some BBPos.normal },
        error := none } ∧
    analyzeCore (constBars 20 100 0) 20 = some (constCoreOut 100 0) :=
  C1_constant_window 20 100 0 (by decide) (by decide)

/-- C2 counterexample: at the concrete instance of the rising scenario
(30 samples at 100 * 1.001^i, volume 1 with a final spike to 2) the scorer
does not emit BUY and the confidence is not above 50, so the claim fails
as stated. -/
theorem C2_counterexample :
    (analyze_timeframe (some risingBars) 30).signal ≠ Signal.BUY ∧
    ¬ 50 < (analyze_timeframe (some risingBars) 30).indicators.confidence := by
  constructor
  · decide
  · decide

/-- C2 amended: the rising scenario does give volume_strength 3 (ratio
60/31), but the RSI saturates at exactly 100 because every difference is
positive, so the RSI rule fires overbought with contributions [-2, -1]
that exactly cancel the EMA and MACD contributions [1, 1, 1]; the trend
strength is 0 and the signal is NEUTRAL with confidence exactly 50. -/
theorem C2_rising_window :
    ∃ o : CoreOut, analyzeCore risingBars 30 = some o ∧
      o.volume_strength = 3 ∧
      o.volume_ratio = 60 / 31 ∧
      o.last_rsi = PF.num 100 ∧
      o.trend_signals = [1, 1, 1, -2, -1] ∧
      o.trend_strength = 0 ∧
      o.signal = Signal.NEUTRAL ∧
      (analyze_timeframe (some risingBars) 30).indicators.confidence = 50 :=
  ⟨(analyzeCore risingBars 30).iget, by decide⟩

end TgBot
